import Mathlib

/-!
Shallow embedding of the instancing-bucket audit, batch-geometry-rebuild and
resource-disposal code of the vite-r3f-thatopen-sandbox repository:

* src/src/components/thatopen/utils/instancingKeys.ts
  (fnv1a32Update, hashSampledArrayLike, getGeometryKeyFromMeshData,
   getMaterialKeyFromMeshData, computeInstancingAuditSummary)
* src/src/components/thatopen/DeclarativeRecreatedElementsRenderer.tsx
  (createLambertMaterialResolver, buildGeometryFromMeshData, the batch loop,
   the bucket-count accumulation, repeatedBucketParts)
* src/unnamed/part_003 (InstancedRecreatedElementsRenderer: the bucketMap
  accumulation and the same batch loop / geometry builder)
* src/src/components/thatopen/useThatOpenFragments.ts and
  src/src/components/ThatOpenFragment.tsx (modelId derivation from the URL)

JavaScript numbers are modelled faithfully where the claims depend on them:
unsigned 32-bit results are Nat reduced mod 2 ^ 32, the ToInt32 coercion of
the xor is explicit, and the JS double multiplication `hash * 16777619`
(whose exact product can exceed 2 ^ 53) is modelled by rounding the exact
integer product to the nearest 53-bit-significand value, ties to even,
before the ToUint32 reduction.  Array elements are taken to be integer
coordinate values (for which the JS computation `(v * 1e6) | 0` is the exact
wrap-around shown here whenever the double product is exact, in particular
for all values used in concrete evaluations below).
-/

/-- JS `x >>> 0` (ToUint32) applied to an exact integer value. -/
def toUint32 (x : Int) : Nat := (x.emod (2 ^ 32)).toNat

/-- Reinterpret a uint32 bit pattern as the JS int32 value it denotes. -/
def int32OfUint32 (n : Nat) : Int :=
  if n < 2 ^ 31 then (n : Int) else (n : Int) - 2 ^ 32

/-- Round a natural number to the nearest multiple of 2 ^ e, ties to the even
multiple (the rounding IEEE-754 binary64 performs on integers needing e extra
significand bits). -/
def roundToMultiple (e : Nat) (n : Nat) : Nat :=
  let p := 2 ^ e
  let q := n / p
  let r := n % p
  let q' := if 2 * r < p then q else if p < 2 * r then q + 1 else if q % 2 = 0 then q else q + 1
  q' * p

/-- Round an exact integer of magnitude below 2 ^ 56 to the nearest IEEE-754
double (53-bit significand, round to nearest, ties to even).  Every
multiplication result appearing in the hash has magnitude below 2 ^ 56. -/
def fl53 (m : Int) : Int :=
  let a := m.natAbs
  let e := if a < 2 ^ 53 then 0 else if a < 2 ^ 54 then 1 else if a < 2 ^ 55 then 2 else 3
  let r := roundToMultiple e a
  if m < 0 then -(r : Int) else (r : Int)

/-- instancingKeys.ts, fnv1a32Update: `hash ^= v >>> 0` (an int32 result),
then `(hash * 16777619) >>> 0` where the product is a JS double. -/
def fnv1a32Update (hash v : Nat) : Nat :=
  toUint32 (fl53 (int32OfUint32 (hash ^^^ v) * 16777619))

/-- instancingKeys.ts, the per-element quantisation `((v * 1e6) | 0) >>> 0`
for a numeric element (every element of our integer arrays is a number, so
the `typeof v` guard never yields the 0 branch). -/
def quantizeCoord (v : Int) : Nat := toUint32 (v * 1000000)

/-- instancingKeys.ts, hashSampledArrayLike.  `none` stands for a null or
undefined array.  The loop `for (i = 0; i < n; i += step)` visits the
indices 0, step, 2*step, ..., i.e. (n + step - 1) / step of them.  (JS
division by zero would give step = Infinity; only positive maxSamples, as in
every call site, is modelled.) -/
def hashSampledArrayLike (a : Option (List Int)) (maxSamples : Nat) : Nat :=
  match a with
  | none => 0
  | some l =>
    if l.length = 0 then 0
    else
      let n := l.length
      let step := max 1 (n / maxSamples)
      let idxs := List.range' 0 ((n + step - 1) / step) step
      let h := idxs.foldl (fun h i => fnv1a32Update h (quantizeCoord (l.getD i 0))) 2166136261
      fnv1a32Update h (toUint32 (n : Int))

/-- JS `Number.prototype.toString(16)` on a uint32: lowercase hex digits. -/
def natToHexString (n : Nat) : String := (Nat.toDigits 16 n).asString

/-- instancingKeys.ts, getGeometryKeyFromMeshData, expressed on the two
underlying number sequences (`positions?.length ?? 0`, the two sampled
hashes, and the template string). -/
def geometryKeyCore (positions indices : Option (List Int)) : String :=
  let pLen := match positions with | none => 0 | some l => l.length
  let iLen := match indices with | none => 0 | some l => l.length
  let pHash := hashSampledArrayLike positions 64
  let iHash := hashSampledArrayLike indices 64
  "p" ++ toString pLen ++ ":i" ++ toString iLen ++ ":ph" ++ natToHexString pHash
    ++ ":ih" ++ natToHexString iHash

/-- Kind tag of a JS array-like of numbers: Float64Array, Float32Array, or
any other array-like (only the Float64Array test in
buildGeometryFromMeshData distinguishes them). -/
inductive ArrayKind where
  | float32
  | float64
  | plain
deriving DecidableEq, Repr

/-- A JS array-like of numbers: its kind and its element sequence. -/
structure NumArray where
  kind : ArrayKind
  data : List Int
deriving DecidableEq, Repr

/-- A Fragments MeshData part.  `none` fields stand for absent/undefined
values; `sampleId = none` covers any non-number sampleId.  The transform
(consumed only by toMatrix4) carries no information relevant to the audited
properties and is not modelled. -/
structure MeshData where
  positions : Option NumArray
  indices : Option NumArray
  sampleId : Option Int
deriving DecidableEq, Repr

/-- instancingKeys.ts, getGeometryKeyFromMeshData: reads only the positions
and indices number sequences. -/
def getGeometryKeyFromMeshData (meshData : MeshData) : String :=
  geometryKeyCore (meshData.positions.map NumArray.data) (meshData.indices.map NumArray.data)

/-- The samples map `allSamples`: sampleId, and the sample's `material` field
when it is a number (`(sid, none)` models a sample without a numeric
material; an absent entry models `get` returning undefined; the empty list
also models a null map). -/
abbrev SamplesMap := List (Int × Option Int)

/-- The composite lookup `allSamples?.get(sampleId)?.material` restricted to
numeric results, shared by getMaterialKeyFromMeshData and
resolveForMeshData. -/
def sampleMaterialId (allSamples : SamplesMap) (sampleId : Int) : Option Int :=
  (List.lookup sampleId allSamples).join

/-- instancingKeys.ts, getMaterialKeyFromMeshData. -/
def getMaterialKeyFromMeshData (meshData : MeshData) (allSamples : SamplesMap) : String :=
  match meshData.sampleId with
  | none => "fallback"
  | some sid =>
    match sampleMaterialId allSamples sid with
    | none => "fallback"
    | some materialId => "mat:" ++ toString materialId

/-- The bucket key computed during both rebuild loops:
`\x7b materialKey \x7d|\x7b geometryKey \x7d`. -/
def bucketKeyOf (allSamples : SamplesMap) (meshData : MeshData) : String :=
  getMaterialKeyFromMeshData meshData allSamples ++ "|" ++ getGeometryKeyFromMeshData meshData

/-- Identity of a three.js MeshLambertMaterial created during a build: the
single fallback material, or the material created (and cached) for a given
materialId.  Colour parameters do not affect any audited property and are
not modelled. -/
inductive MeshLambertMaterial where
  | fallback
  | created (materialId : Int)
deriving DecidableEq, Repr

/-- A three.js BufferGeometry as configured by buildGeometryFromMeshData:
its position attribute (array and itemSize) and its index, when set. -/
structure BufferGeometry where
  position : Option (NumArray × Nat)
  index : Option (List Int)
deriving DecidableEq, Repr

/-- The `disposables` record threaded through a build. -/
structure Disposables where
  geometries : List BufferGeometry
  materials : List MeshLambertMaterial
deriving DecidableEq, Repr

/-- The Float64Array-to-Float32Array conversion in buildGeometryFromMeshData
(element values carried over; the kind changes). -/
def convertPositions (ps : NumArray) : NumArray :=
  if ps.kind = ArrayKind.float64 then { kind := ArrayKind.float32, data := ps.data } else ps

/-- DeclarativeRecreatedElementsRenderer.tsx / part_003,
buildGeometryFromMeshData.  Returns the built geometry (if any) and the
updated disposables; in the source the geometry object is pushed into
`disposables.geometries` and then configured, so the registered entry is the
returned geometry itself.  computeBoundingSphere / computeVertexNormals add
no audited state and are not modelled. -/
def buildGeometryFromMeshData (meshData : MeshData) (disposables : Disposables) :
    Option BufferGeometry × Disposables :=
  match meshData.positions with
  | none => (none, disposables)
  | some ps =>
    if ps.data.length = 0 then (none, disposables)
    else
      let geometry : BufferGeometry :=
        { position := some (convertPositions ps, 3)
          index :=
            match meshData.indices with
            | none => none
            | some idxArr => if 0 < idxArr.data.length then some idxArr.data else none }
      (some geometry, { disposables with geometries := disposables.geometries ++ [geometry] })

/-- State of the closure returned by createLambertMaterialResolver: the
`materialCache` keys in creation order (the cached value for id `i` is the
material created for `i`) together with the disposables record it pushes
into. -/
structure ResolverState where
  materialCache : List Int
  disposables : Disposables
deriving DecidableEq, Repr

/-- createLambertMaterialResolver: creates the fallback material and pushes
it into `disposables.materials` immediately. -/
def createLambertMaterialResolver (disposables : Disposables) : ResolverState :=
  { materialCache := []
    disposables :=
      { disposables with materials := disposables.materials ++ [MeshLambertMaterial.fallback] } }

/-- The resolver's getOrCreate: return the cached material for this id, or
create one, cache it and register it in disposables. -/
def getOrCreate (st : ResolverState) (materialId : Int) : MeshLambertMaterial × ResolverState :=
  if materialId ∈ st.materialCache then (MeshLambertMaterial.created materialId, st)
  else
    (MeshLambertMaterial.created materialId,
      { materialCache := st.materialCache ++ [materialId]
        disposables :=
          { st.disposables with
            materials := st.disposables.materials ++ [MeshLambertMaterial.created materialId] } })

/-- The resolver's resolveForMeshData.  The raw-materials map is consumed
only for colour parameters, which are not modelled. -/
def resolveForMeshData (st : ResolverState) (meshData : MeshData) (allSamples : SamplesMap) :
    MeshLambertMaterial × ResolverState :=
  match meshData.sampleId with
  | none => (MeshLambertMaterial.fallback, st)
  | some sampleId =>
    match sampleMaterialId allSamples sampleId with
    | none => (MeshLambertMaterial.fallback, st)
    | some materialId => getOrCreate st materialId

/-- The part-processing body of the rebuild loop in
DeclarativeRecreatedElementsRenderer.tsx (lines 192-194): build the geometry
(registering it), skip the part when no geometry results, otherwise resolve
its material (registering newly created materials). -/
def runBuildStep (allSamples : SamplesMap) (st : ResolverState) (md : MeshData) : ResolverState :=
  let r := buildGeometryFromMeshData md st.disposables
  let st' := { st with disposables := r.2 }
  match r.1 with
  | none => st'
  | some _ => (resolveForMeshData st' md allSamples).2

/-- One rebuild run: fresh empty disposables, a fresh material resolver, then
every mesh part processed in order. -/
def runBuild (allSamples : SamplesMap) (mds : List MeshData) : ResolverState :=
  mds.foldl (runBuildStep allSamples)
    (createLambertMaterialResolver { geometries := [], materials := [] })

/-- The guard `meshData?.positions && meshData.positions.length > 0` deciding
that a part yields a geometry. -/
def hasNonemptyPositions (md : MeshData) : Bool :=
  match md.positions with
  | none => false
  | some ps => decide (0 < ps.data.length)

/-- The geometry value buildGeometryFromMeshData configures for a part
(meaningful when the part has non-empty positions). -/
def builtGeometry (md : MeshData) : BufferGeometry :=
  { position := md.positions.map (fun ps => (convertPositions ps, 3))
    index :=
      match md.indices with
      | none => none
      | some idxArr => if 0 < idxArr.data.length then some idxArr.data else none }

/-- Specification of the geometries a build creates: one per part with
non-empty positions, in part order. -/
def createdGeometries (mds : List MeshData) : List BufferGeometry :=
  (mds.filter hasNonemptyPositions).map builtGeometry

/-- The materialId a part resolves to, when its sampleId is a number and the
looked-up sample's material is a number. -/
def resolvedMaterialId (allSamples : SamplesMap) (md : MeshData) : Option Int :=
  md.sampleId.bind (sampleMaterialId allSamples)

/-- Specification of the materialIds the resolver is asked for during a
build, in order: those of the parts that produced a geometry. -/
def resolvedIds (allSamples : SamplesMap) (mds : List MeshData) : List Int :=
  (mds.filter hasNonemptyPositions).filterMap (resolvedMaterialId allSamples)

/-- First occurrence of each id not already in `seen`, in order: the ids the
material cache ends up holding. -/
def firstDedup (seen : List Int) : List Int → List Int
  | [] => []
  | x :: xs => if x ∈ seen then firstDedup seen xs else x :: firstDedup (x :: seen) xs

/-- part_003, InstancedRecreatedElementsRenderer: `bucketMap.get(bucketKey)`,
creation of a missing bucket with an empty matrices list, then
`bucket.matrices.push(...)`.  A JS Map keeps insertion order, so a missing
key is appended at the end.  Matrix contents are opaque (`Unit`); the
bucket-build's template/material fields do not affect which bucket a part
lands in and are modelled separately by the resolver. -/
def pushBucketMatrix : List (String × List Unit) → String → List (String × List Unit)
  | [], key => [(key, [()])]
  | (k, ms) :: rest, key =>
    if k = key then (k, ms ++ [()]) :: rest else (k, ms) :: pushBucketMatrix rest key

/-- part_003 lines 285-307: every part with non-empty positions is pushed
into the bucket keyed by materialKey|geometryKey; other parts are skipped. -/
def accumulateBuckets (allSamples : SamplesMap) (mds : List MeshData) :
    List (String × List Unit) :=
  mds.foldl
    (fun bm md =>
      if hasNonemptyPositions md then pushBucketMatrix bm (bucketKeyOf allSamples md) else bm)
    []

/-- Number of matrices stored under a key of the bucket map (0 when the key
is absent). -/
def bucketMatrixCount (bm : List (String × List Unit)) (key : String) : Nat :=
  match List.lookup key bm with
  | none => 0
  | some ms => ms.length

/-- JS `Array.prototype.slice(start, stop)` for 0 ≤ start ≤ stop. -/
def jsSlice {α : Type} (l : List α) (start stop : Nat) : List α :=
  (l.drop start).take (stop - start)

/-- The batch loop `for (start = 0; start < allIds.length; start += batchSize)`
of both renderers, with fuel bounding the iteration count (allIds.length
iterations suffice for any positive batchSize). -/
def batchLoop {α : Type} (batchSize : Nat) (allIds : List α) : Nat → Nat → List (List α)
  | _, 0 => []
  | start, fuel + 1 =>
    if start < allIds.length then
      jsSlice allIds start (start + batchSize) :: batchLoop batchSize allIds (start + batchSize) fuel
    else []

/-- The chunks `allIds.slice(start, start + batchSize)` requested by the
batch loop, in loop order. -/
def batchChunks {α : Type} (batchSize : Nat) (allIds : List α) : List (List α) :=
  batchLoop batchSize allIds 0 allIds.length

/-- instancingKeys.ts, BucketLike: a bucket key and its matrices (contents
irrelevant to the audit). -/
structure BucketLike (α : Type) where
  bucketKey : String
  matrices : List α
deriving DecidableEq

/-- An entry of topRepeatedBuckets. -/
structure TopBucket where
  bucketKey : String
  instances : Nat
deriving DecidableEq, Repr

/-- The optional options argument's shape: an optional topN field. -/
structure AuditOptions where
  topN : Option Nat
deriving DecidableEq, Repr

/-- instancingKeys.ts, the `options?.topN ?? 20` default. -/
def auditTopN (options : Option AuditOptions) : Nat :=
  match options with
  | none => 20
  | some o => o.topN.getD 20

/-- The seven counters of the bucket-size histogram, keyed
1 / 2 / 3-5 / 6-10 / 11-50 / 51-200 / 201+. -/
structure BucketSizeHistogram where
  size1 : Nat
  size2 : Nat
  size3to5 : Nat
  size6to10 : Nat
  size11to50 : Nat
  size51to200 : Nat
  size201plus : Nat
deriving DecidableEq, Repr

/-- The if/else-if chain classifying one bucket of size n into its histogram
bin. -/
def histogramAdd (h : BucketSizeHistogram) (n : Nat) : BucketSizeHistogram :=
  if n = 1 then { h with size1 := h.size1 + 1 }
  else if n = 2 then { h with size2 := h.size2 + 1 }
  else if n ≤ 5 then { h with size3to5 := h.size3to5 + 1 }
  else if n ≤ 10 then { h with size6to10 := h.size6to10 + 1 }
  else if n ≤ 50 then { h with size11to50 := h.size11to50 + 1 }
  else if n ≤ 200 then { h with size51to200 := h.size51to200 + 1 }
  else { h with size201plus := h.size201plus + 1 }

/-- instancingKeys.ts, InstancingAuditSummary. -/
structure InstancingAuditSummary where
  totalParts : Nat
  uniqueBuckets_geometryPlusMaterial : Nat
  uniqueParts_singletons : Nat
  nonUniqueParts_repeated : Nat
  singletonBuckets : Nat
  repeatedBuckets : Nat
  bucketSizeHistogram : BucketSizeHistogram
  topRepeatedBuckets : List TopBucket
deriving DecidableEq

/-- instancingKeys.ts, computeInstancingAuditSummary, on the bucket map's
value list in insertion order (`Array.from(bucketMap.values())`;
`bucketMap.size` is that list's length since Map keys are distinct).  The
subtractions are exact: singleton buckets never outnumber parts or buckets.
JS `Array.prototype.sort` is stable and is modelled by a stable merge sort
with the comparator `(a, b) => b.matrices.length - a.matrices.length`. -/
def computeInstancingAuditSummary {α : Type} (bucketValues : List (BucketLike α))
    (options : Option AuditOptions) : InstancingAuditSummary :=
  let topN := auditTopN options
  let totalParts := bucketValues.foldl (fun acc b => acc + b.matrices.length) 0
  let uniqueBuckets := bucketValues.length
  let singletonBuckets :=
    bucketValues.foldl (fun acc b => acc + if b.matrices.length = 1 then 1 else 0) 0
  let repeatedBuckets := uniqueBuckets - singletonBuckets
  let uniqueParts := singletonBuckets
  let nonUniqueParts := totalParts - uniqueParts
  let hist := bucketValues.foldl (fun h b => histogramAdd h b.matrices.length) ⟨0, 0, 0, 0, 0, 0, 0⟩
  let sortedRepeated :=
    (bucketValues.filter (fun b => 1 < b.matrices.length)).mergeSort
      (fun a b => decide (b.matrices.length ≤ a.matrices.length))
  let topRepeatedBuckets :=
    (sortedRepeated.take topN).map (fun b =>
      { bucketKey := b.bucketKey, instances := b.matrices.length : TopBucket })
  { totalParts := totalParts
    uniqueBuckets_geometryPlusMaterial := uniqueBuckets
    uniqueParts_singletons := uniqueParts
    nonUniqueParts_repeated := nonUniqueParts
    singletonBuckets := singletonBuckets
    repeatedBuckets := repeatedBuckets
    bucketSizeHistogram := hist
    topRepeatedBuckets := topRepeatedBuckets }

/-- DeclarativeRecreatedElementsRenderer.tsx line 235: the sum of the bucket
counts that exceed 1,
`Array.from(bucketCounts.values()).reduce((acc, c) => acc + (c > 1 ? c : 0), 0)`. -/
def repeatedBucketParts (bucketCounts : List Nat) : Nat :=
  bucketCounts.foldl (fun acc c => acc + if 1 < c then c else 0) 0

/-- JS `String.prototype.split` with a single-character separator and no
limit, on the character sequence: every occurrence splits, empty pieces are
kept, and the empty string yields one empty piece. -/
def splitChar (sep : Char) : List Char → List (List Char)
  | [] => [[]]
  | c :: rest =>
    match splitChar sep rest with
    | [] => [[]]
    | h :: t => if c = sep then [] :: h :: t else (c :: h) :: t

/-- useThatOpenFragments.ts line 65 / ThatOpenFragment.tsx line 97:
`fragmentUrl.split('/').pop()?.split('.').shift() ?? 'model'`.  `pop` takes
the last element when the array is non-empty (else undefined, short-circuiting
via `?.`), `shift` the first. -/
def modelIdFromUrl (fragmentUrl : List Char) : List Char :=
  match (splitChar '/' fragmentUrl).getLast? with
  | none => "model".data
  | some lastSegment =>
    match (splitChar '.' lastSegment).head? with
    | none => "model".data
    | some firstPiece => firstPiece

/-! Theorems.  Each claim has exactly one theorem; helper lemmas are shared. -/

theorem batchLoop_join {α : Type} (b : Nat) (l : List α) (hb : 0 < b) :
    ∀ fuel start, l.length - start ≤ fuel →
      (batchLoop b l start fuel).flatten = l.drop start := by
  intro fuel
  induction fuel with
  | zero =>
    intro start h
    have hs : l.length ≤ start := by omega
    simp [batchLoop, List.drop_eq_nil_of_le hs]
  | succ n ih =>
    intro start h
    by_cases hs : start < l.length
    · have hrec := ih (start + b) (by omega)
      simp only [batchLoop, if_pos hs, List.flatten_cons, hrec, jsSlice]
      have hsb : start + b - start = b := by omega
      rw [hsb, ← List.drop_drop]
      exact List.take_append_drop b (l.drop start)
    · have hs' : l.length ≤ start := by omega
      simp [batchLoop, hs, List.drop_eq_nil_of_le hs']

theorem batchLoop_mem {α : Type} (b : Nat) (l : List α) :
    ∀ fuel start c, c ∈ batchLoop b l start fuel →
      ∃ s, s < l.length ∧ c = jsSlice l s (s + b) := by
  intro fuel
  induction fuel with
  | zero => intro start c hc; simp [batchLoop] at hc
  | succ n ih =>
    intro start c hc
    by_cases hs : start < l.length
    · simp only [batchLoop, if_pos hs, List.mem_cons] at hc
      rcases hc with hc | hc
      · exact ⟨start, hs, hc⟩
      · exact ih (start + b) c hc
    · simp [batchLoop, hs] at hc

theorem batchLoop_get? {α : Type} (b : Nat) (l : List α) (hb : 0 < b) :
    ∀ fuel start k, l.length - start ≤ fuel → start + k * b < l.length →
      (batchLoop b l start fuel).get? k =
        some (jsSlice l (start + k * b) (start + k * b + b)) := by
  intro fuel
  induction fuel with
  | zero => intro start k hf hk; omega
  | succ n ih =>
    intro start k hf hk
    have hs : start < l.length := by
      have : start ≤ start + k * b := Nat.le_add_right _ _
      omega
    cases k with
    | zero => simp [batchLoop, if_pos hs]
    | succ m =>
      have hk' : start + b + m * b < l.length := by rw [Nat.succ_mul] at hk; omega
      have hrec := ih (start + b) m (by omega) hk'
      have harg : start + (m + 1) * b = start + b + m * b := by rw [Nat.succ_mul]; ring
      rw [harg]
      simpa [batchLoop, if_pos hs] using hrec

/-- C2: for every id list and positive batchSize, the batch loop requests the
chunks allIds.slice(start, start + batchSize) for start = 0, b, 2b, ...;
every chunk is non-empty of length at most batchSize, and their
concatenation in loop order is allIds, so every id is requested exactly once
and in the original order. -/
theorem claim_C2_batch_chunks {α : Type} (allIds : List α) (batchSize : Nat)
    (hb : 0 < batchSize) :
    (∀ c ∈ batchChunks batchSize allIds, c ≠ [] ∧ c.length ≤ batchSize) ∧
    (batchChunks batchSize allIds).flatten = allIds ∧
    (∀ k, k * batchSize < allIds.length →
      (batchChunks batchSize allIds).get? k =
        some (jsSlice allIds (k * batchSize) (k * batchSize + batchSize))) := by
  refine ⟨?_, ?_, ?_⟩
  · intro c hc
    obtain ⟨s, hs, rfl⟩ := batchLoop_mem batchSize allIds allIds.length 0 c hc
    constructor
    · have hlen : (jsSlice allIds s (s + batchSize)).length = min (s + batchSize - s) (allIds.length - s) := by
        simp [jsSlice]
      intro hnil
      rw [hnil] at hlen
      simp at hlen
      omega
    · have : (jsSlice allIds s (s + batchSize)).length ≤ s + batchSize - s := by
        simp [jsSlice]
      omega
  · have := batchLoop_join batchSize allIds hb allIds.length 0 (by omega)
    simpa [batchChunks] using this
  · intro k hk
    have := batchLoop_get? batchSize allIds hb allIds.length 0 k (by omega) (by omega)
    simpa [batchChunks] using this

theorem claim_C2_batch_chunks_witness :
    0 < 2 ∧
    ((∀ c ∈ batchChunks 2 [10, 20, 30, 40, 50], c ≠ [] ∧ c.length ≤ 2) ∧
      (batchChunks 2 [10, 20, 30, 40, 50]).flatten = [10, 20, 30, 40, 50] ∧
      (∀ k, k * 2 < ([10, 20, 30, 40, 50] : List Nat).length →
        (batchChunks 2 [10, 20, 30, 40, 50]).get? k =
          some (jsSlice [10, 20, 30, 40, 50] (k * 2) (k * 2 + 2)))) :=
  ⟨by decide, claim_C2_batch_chunks [10, 20, 30, 40, 50] 2 (by decide)⟩

theorem foldl_add_eq {α : Type} (f : α → Nat) :
    ∀ (l : List α) (init : Nat), l.foldl (fun acc b => acc + f b) init = init + (l.map f).sum := by
  intro l
  induction l with
  | nil => intro init; simp
  | cons x xs ih => intro init; simp only [List.foldl_cons, List.map_cons, List.sum_cons, ih]; omega

theorem sum_map_le_sum_map {α : Type} (f g : α → Nat) (l : List α) (h : ∀ b ∈ l, f b ≤ g b) :
    (l.map f).sum ≤ (l.map g).sum := by
  induction l with
  | nil => simp
  | cons x xs ih =>
    simp only [List.map_cons, List.sum_cons]
    have h1 := h x (by simp)
    have h2 := ih (fun b hb => h b (by simp [hb]))
    omega

theorem sum_map_one_eq_length {α : Type} (l : List α) :
    (l.map (fun _ => 1)).sum = l.length := by
  induction l with
  | nil => simp
  | cons x xs ih => simp [ih]; omega

/-- Sum of the seven histogram counters. -/
def histCount (h : BucketSizeHistogram) : Nat :=
  h.size1 + h.size2 + h.size3to5 + h.size6to10 + h.size11to50 + h.size51to200 + h.size201plus

theorem histCount_histogramAdd (h : BucketSizeHistogram) (n : Nat) :
    histCount (histogramAdd h n) = histCount h + 1 := by
  unfold histogramAdd histCount
  split_ifs <;> simp <;> omega

theorem histCount_foldl {α : Type} (l : List (BucketLike α)) :
    ∀ h0, histCount (l.foldl (fun h b => histogramAdd h b.matrices.length) h0) =
      histCount h0 + l.length := by
  induction l with
  | nil => intro h0; simp
  | cons x xs ih =>
    intro h0
    simp only [List.foldl_cons, List.length_cons, ih, histCount_histogramAdd]
    omega

/-- C3: for every bucket map, computeInstancingAuditSummary conserves counts:
totalParts = uniqueParts_singletons + nonUniqueParts_repeated;
uniqueBuckets_geometryPlusMaterial = singletonBuckets + repeatedBuckets = the
number of entries in the bucket map; and the seven bucketSizeHistogram
counters sum to the number of entries (each bucket falls in exactly one
bin). -/
theorem claim_C3_audit_summary_conservation {α : Type} (bucketValues : List (BucketLike α))
    (options : Option AuditOptions) :
    (computeInstancingAuditSummary bucketValues options).totalParts =
        (computeInstancingAuditSummary bucketValues options).uniqueParts_singletons +
          (computeInstancingAuditSummary bucketValues options).nonUniqueParts_repeated ∧
    (computeInstancingAuditSummary bucketValues options).uniqueBuckets_geometryPlusMaterial =
        (computeInstancingAuditSummary bucketValues options).singletonBuckets +
          (computeInstancingAuditSummary bucketValues options).repeatedBuckets ∧
    (computeInstancingAuditSummary bucketValues options).uniqueBuckets_geometryPlusMaterial =
        bucketValues.length ∧
    histCount (computeInstancingAuditSummary bucketValues options).bucketSizeHistogram =
        bucketValues.length := by
  have hT : (computeInstancingAuditSummary bucketValues options).totalParts =
      bucketValues.foldl (fun acc b => acc + b.matrices.length) 0 := rfl
  have hU : (computeInstancingAuditSummary bucketValues options).uniqueBuckets_geometryPlusMaterial =
      bucketValues.length := rfl
  have hS : (computeInstancingAuditSummary bucketValues options).singletonBuckets =
      bucketValues.foldl (fun acc b => acc + if b.matrices.length = 1 then 1 else 0) 0 := rfl
  have hP : (computeInstancingAuditSummary bucketValues options).uniqueParts_singletons =
      bucketValues.foldl (fun acc b => acc + if b.matrices.length = 1 then 1 else 0) 0 := rfl
  have hN : (computeInstancingAuditSummary bucketValues options).nonUniqueParts_repeated =
      bucketValues.foldl (fun acc b => acc + b.matrices.length) 0 -
        bucketValues.foldl (fun acc b => acc + if b.matrices.length = 1 then 1 else 0) 0 := rfl
  have hR : (computeInstancingAuditSummary bucketValues options).repeatedBuckets =
      bucketValues.length -
        bucketValues.foldl (fun acc b => acc + if b.matrices.length = 1 then 1 else 0) 0 := rfl
  have hH : (computeInstancingAuditSummary bucketValues options).bucketSizeHistogram =
      bucketValues.foldl (fun h b => histogramAdd h b.matrices.length) ⟨0, 0, 0, 0, 0, 0, 0⟩ := rfl
  have eT := foldl_add_eq (fun b : BucketLike α => b.matrices.length) bucketValues 0
  have eS := foldl_add_eq (fun b : BucketLike α => if b.matrices.length = 1 then 1 else 0)
    bucketValues 0
  have hSle : ((bucketValues.map fun b => if b.matrices.length = 1 then 1 else 0).sum) ≤
      ((bucketValues.map fun b => b.matrices.length).sum) := by
    apply sum_map_le_sum_map
    intro b _
    split_ifs with h1 <;> omega
  have hSlen : ((bucketValues.map fun b => if b.matrices.length = 1 then 1 else 0).sum) ≤
      bucketValues.length := by
    calc ((bucketValues.map fun b => if b.matrices.length = 1 then 1 else 0).sum)
        ≤ ((bucketValues.map fun _ => 1).sum) := by
          apply sum_map_le_sum_map
          intro b _
          split_ifs <;> omega
      _ = bucketValues.length := sum_map_one_eq_length bucketValues
  refine ⟨?_, ?_, hU, ?_⟩
  · rw [hT, hP, hN, eT, eS]; omega
  · rw [hU, hS, hR, eS]; omega
  · rw [hH, histCount_foldl]
    simp [histCount]

theorem sum_if_repeated_add_singletons (counts : List Nat) :
    (counts.map (fun c => if 1 < c then c else 0)).sum +
      (counts.map (fun c => if c = 1 then 1 else 0)).sum = counts.sum := by
  induction counts with
  | nil => simp
  | cons c cs ih =>
    simp only [List.map_cons, List.sum_cons]
    have hc : (if 1 < c then c else 0) + (if c = 1 then 1 else 0) = c := by
      split_ifs <;> omega
    omega

/-- C4: the inline repeatedBucketParts of DeclarativeRecreatedElementsRenderer
(sum of the counts exceeding 1) equals nonUniqueParts_repeated of
computeInstancingAuditSummary (totalParts minus singleton buckets) on any
bucket map whose matrices lengths are those counts. -/
theorem claim_C4_repeated_parts_agree {α : Type} (bucketCounts : List Nat)
    (bucketValues : List (BucketLike α))
    (h : bucketValues.map (fun b => b.matrices.length) = bucketCounts) :
    repeatedBucketParts bucketCounts =
      (computeInstancingAuditSummary bucketValues none).nonUniqueParts_repeated := by
  subst h
  have hN : (computeInstancingAuditSummary bucketValues none).nonUniqueParts_repeated =
      bucketValues.foldl (fun acc b => acc + b.matrices.length) 0 -
        bucketValues.foldl (fun acc b => acc + if b.matrices.length = 1 then 1 else 0) 0 := rfl
  have hRep : repeatedBucketParts (bucketValues.map fun b => b.matrices.length) =
      ((bucketValues.map fun b => b.matrices.length).map
        (fun c => if 1 < c then c else 0)).sum := by
    unfold repeatedBucketParts
    rw [foldl_add_eq (fun c : Nat => if 1 < c then c else 0), List.map_map]
    simp [Function.comp]
  have eT := foldl_add_eq (fun b : BucketLike α => b.matrices.length) bucketValues 0
  have eS := foldl_add_eq (fun b : BucketLike α => if b.matrices.length = 1 then 1 else 0)
    bucketValues 0
  have hid := sum_if_repeated_add_singletons (bucketValues.map fun b => b.matrices.length)
  have hmm1 : ((bucketValues.map fun b => b.matrices.length).map
      (fun c => if c = 1 then 1 else 0)).sum =
      (bucketValues.map fun b => if b.matrices.length = 1 then 1 else 0).sum := by
    rw [List.map_map]
    rfl
  rw [hN, hRep, eT, eS]
  omega

theorem claim_C4_repeated_parts_agree_witness :
    ([⟨"a", [0]⟩, ⟨"b", [0, 0]⟩, ⟨"c", []⟩] : List (BucketLike Nat)).map
        (fun b => b.matrices.length) = [1, 2, 0] ∧
    repeatedBucketParts [1, 2, 0] =
      (computeInstancingAuditSummary
        ([⟨"a", [0]⟩, ⟨"b", [0, 0]⟩, ⟨"c", []⟩] : List (BucketLike Nat)) none).nonUniqueParts_repeated :=
  ⟨by decide, claim_C4_repeated_parts_agree [1, 2, 0]
    ([⟨"a", [0]⟩, ⟨"b", [0, 0]⟩, ⟨"c", []⟩] : List (BucketLike Nat)) (by decide)⟩

/-- C5: topRepeatedBuckets contains only buckets with more than one matrix,
is sorted in non-increasing order of its instances field, and has at most
topN entries (options.topN when given, 20 otherwise). -/
theorem claim_C5_top_repeated_buckets {α : Type} (bucketValues : List (BucketLike α))
    (options : Option AuditOptions) :
    (∀ e ∈ (computeInstancingAuditSummary bucketValues options).topRepeatedBuckets,
      1 < e.instances) ∧
    (computeInstancingAuditSummary bucketValues options).topRepeatedBuckets.Pairwise
      (fun a b => b.instances ≤ a.instances) ∧
    (computeInstancingAuditSummary bucketValues options).topRepeatedBuckets.length ≤
      auditTopN options := by
  have hTop : (computeInstancingAuditSummary bucketValues options).topRepeatedBuckets =
      (((bucketValues.filter (fun b => 1 < b.matrices.length)).mergeSort
          (fun a b => decide (b.matrices.length ≤ a.matrices.length))).take
        (auditTopN options)).map
        (fun b => { bucketKey := b.bucketKey, instances := b.matrices.length : TopBucket }) := rfl
  rw [hTop]
  refine ⟨?_, ?_, ?_⟩
  · intro e he
    rw [List.mem_map] at he
    obtain ⟨b, hb, rfl⟩ := he
    have hb' : b ∈ (bucketValues.filter (fun b => 1 < b.matrices.length)).mergeSort
        (fun a b => decide (b.matrices.length ≤ a.matrices.length)) :=
      (List.take_sublist _ _).subset hb
    have hb'' : b ∈ bucketValues.filter (fun b => 1 < b.matrices.length) :=
      (List.mergeSort_perm _ _).subset hb'
    have := (List.mem_filter.mp hb'').2
    simpa using this
  · have hsorted := @List.sorted_mergeSort (BucketLike α)
      (fun a b => decide (b.matrices.length ≤ a.matrices.length))
      (fun a b c hab hbc => by
        simp only [decide_eq_true_eq] at hab hbc ⊢
        omega)
      (fun a b => by
        rcases Nat.le_total b.matrices.length a.matrices.length with h | h <;> simp [h])
      (bucketValues.filter (fun b => 1 < b.matrices.length))
    have htake := hsorted.sublist (List.take_sublist (auditTopN options) _)
    rw [List.pairwise_map]
    exact htake.imp (fun h => by simpa using h)
  · rw [List.length_map]
    exact (List.length_take_le _ _)

theorem claim_C5_top_repeated_buckets_witness :
    (∀ e ∈ (computeInstancingAuditSummary
        ([⟨"a", [0, 0, 0]⟩, ⟨"b", [0]⟩, ⟨"c", [0, 0]⟩] : List (BucketLike Nat))
        none).topRepeatedBuckets, 1 < e.instances) ∧
    (computeInstancingAuditSummary
        ([⟨"a", [0, 0, 0]⟩, ⟨"b", [0]⟩, ⟨"c", [0, 0]⟩] : List (BucketLike Nat))
        none).topRepeatedBuckets.Pairwise (fun a b => b.instances ≤ a.instances) ∧
    (computeInstancingAuditSummary
        ([⟨"a", [0, 0, 0]⟩, ⟨"b", [0]⟩, ⟨"c", [0, 0]⟩] : List (BucketLike Nat))
        none).topRepeatedBuckets.length ≤ auditTopN none :=
  claim_C5_top_repeated_buckets
    ([⟨"a", [0, 0, 0]⟩, ⟨"b", [0]⟩, ⟨"c", [0, 0]⟩] : List (BucketLike Nat)) none

/-- C6: buildGeometryFromMeshData returns null exactly when the part has no
positions array or an empty one; otherwise the returned geometry's position
attribute is the positions array (Float64Array converted to Float32Array)
with item size 3, and its index is set exactly when indices exist and are
non-empty. -/
theorem claim_C6_build_geometry (meshData : MeshData) (disposables : Disposables) :
    ((buildGeometryFromMeshData meshData disposables).1 = none ↔
      (meshData.positions = none ∨
        ∃ ps, meshData.positions = some ps ∧ ps.data.length = 0)) ∧
    (∀ g, (buildGeometryFromMeshData meshData disposables).1 = some g →
      ∃ ps, meshData.positions = some ps ∧
        g.position = some (convertPositions ps, 3) ∧
        (g.index ≠ none ↔
          ∃ idxArr, meshData.indices = some idxArr ∧ 0 < idxArr.data.length)) := by
  rcases hpos : meshData.positions with _ | ps
  · simp [buildGeometryFromMeshData, hpos]
  · by_cases hlen : ps.data.length = 0
    · constructor
      · constructor
        · intro _
          exact Or.inr ⟨ps, rfl, hlen⟩
        · intro _
          simp [buildGeometryFromMeshData, hpos, hlen]
      · intro g hg
        simp [buildGeometryFromMeshData, hpos, hlen] at hg
    · constructor
      · constructor
        · intro hnone
          simp [buildGeometryFromMeshData, hpos, hlen] at hnone
        · intro hcases
          rcases hcases with h | ⟨ps', hps', hlen'⟩
          · exact absurd h (by simp)
          · obtain rfl := Option.some.inj hps'
            exact absurd hlen' hlen
      · intro g hg
        simp only [buildGeometryFromMeshData, hpos, if_neg hlen] at hg
        obtain rfl := Option.some.inj hg
        refine ⟨ps, rfl, rfl, ?_⟩
        rcases hidx : meshData.indices with _ | idxArr
        · simp [hidx]
        · by_cases hil : 0 < idxArr.data.length
          · simp [hidx, hil]
          · simp [hidx, hil]

/-- A concrete mesh part used by witnesses: Float64 positions, plain
indices, no sampleId. -/
def mdSampleF64 : MeshData :=
  { positions := some ⟨ArrayKind.float64, [1, 2, 3]⟩
    indices := some ⟨ArrayKind.plain, [0, 1, 2]⟩
    sampleId := none }

/-- The fresh disposables record a build starts from. -/
def emptyDisposables : Disposables := { geometries := [], materials := [] }

theorem claim_C6_build_geometry_witness :
    (((buildGeometryFromMeshData mdSampleF64 emptyDisposables).1 = none ↔
      (mdSampleF64.positions = none ∨
        ∃ ps, mdSampleF64.positions = some ps ∧ ps.data.length = 0)) ∧
    (∀ g, (buildGeometryFromMeshData mdSampleF64 emptyDisposables).1 = some g →
      ∃ ps, mdSampleF64.positions = some ps ∧
        g.position = some (convertPositions ps, 3) ∧
        (g.index ≠ none ↔
          ∃ idxArr, mdSampleF64.indices = some idxArr ∧ 0 < idxArr.data.length))) :=
  claim_C6_build_geometry mdSampleF64 emptyDisposables

theorem getOrCreate_fst (st : ResolverState) (materialId : Int) :
    (getOrCreate st materialId).1 = MeshLambertMaterial.created materialId := by
  unfold getOrCreate
  split_ifs <;> rfl

theorem fallback_ne_mat (s : String) : "fallback" ≠ "mat:" ++ s := by
  intro h
  have hd := congrArg String.data h
  rw [String.data_append] at hd
  have h1 : "fallback".data = ['f', 'a', 'l', 'l', 'b', 'a', 'c', 'k'] := rfl
  have h2 : "mat:".data = ['m', 'a', 't', ':'] := rfl
  rw [h1, h2] at hd
  simp at hd

/-- C8: getMaterialKeyFromMeshData returns 'fallback' exactly when
resolveForMeshData returns the fallback material, namely exactly when the
sampleId is not a number or the looked-up sample's material is not a number;
otherwise the key is 'mat:' followed by the very materialId the resolver
creates or fetches its cached material for. -/
theorem claim_C8_material_key_matches_resolver (meshData : MeshData) (allSamples : SamplesMap)
    (st : ResolverState) :
    (getMaterialKeyFromMeshData meshData allSamples = "fallback" ↔
      (resolveForMeshData st meshData allSamples).1 = MeshLambertMaterial.fallback) ∧
    (getMaterialKeyFromMeshData meshData allSamples = "fallback" ↔
      resolvedMaterialId allSamples meshData = none) ∧
    (∀ i, resolvedMaterialId allSamples meshData = some i →
      getMaterialKeyFromMeshData meshData allSamples = "mat:" ++ toString i ∧
      (resolveForMeshData st meshData allSamples).1 = MeshLambertMaterial.created i) := by
  rcases hsid : meshData.sampleId with _ | sid
  · simp [getMaterialKeyFromMeshData, resolveForMeshData, resolvedMaterialId, hsid]
  · rcases hmid : sampleMaterialId allSamples sid with _ | mid
    · simp [getMaterialKeyFromMeshData, resolveForMeshData, resolvedMaterialId, hsid, hmid]
    · have hkey : getMaterialKeyFromMeshData meshData allSamples = "mat:" ++ toString mid := by
        simp [getMaterialKeyFromMeshData, hsid, hmid]
      have hres : (resolveForMeshData st meshData allSamples).1 =
          MeshLambertMaterial.created mid := by
        simp [resolveForMeshData, hsid, hmid, getOrCreate_fst]
      have hrid : resolvedMaterialId allSamples meshData = some mid := by
        simp [resolvedMaterialId, hsid, hmid]
      refine ⟨?_, ?_, ?_⟩
      · rw [hkey, hres]
        constructor
        · intro h; exact absurd h.symm (fallback_ne_mat (toString mid))
        · intro h; exact absurd h (by simp)
      · rw [hkey, hrid]
        constructor
        · intro h; exact absurd h.symm (fallback_ne_mat (toString mid))
        · intro h; exact absurd h (by simp)
      · intro i hi
        rw [hrid] at hi
        obtain rfl := Option.some.inj hi
        exact ⟨hkey, hres⟩

theorem claim_C8_material_key_matches_resolver_witness :
    (getMaterialKeyFromMeshData { mdSampleF64 with sampleId := some 7 } [(7, some 3)] =
        "fallback" ↔
      (resolveForMeshData (createLambertMaterialResolver emptyDisposables)
        { mdSampleF64 with sampleId := some 7 } [(7, some 3)]).1 =
          MeshLambertMaterial.fallback) ∧
    (getMaterialKeyFromMeshData { mdSampleF64 with sampleId := some 7 } [(7, some 3)] =
        "fallback" ↔
      resolvedMaterialId [(7, some 3)] { mdSampleF64 with sampleId := some 7 } = none) ∧
    (∀ i, resolvedMaterialId [(7, some 3)] { mdSampleF64 with sampleId := some 7 } = some i →
      getMaterialKeyFromMeshData { mdSampleF64 with sampleId := some 7 } [(7, some 3)] =
        "mat:" ++ toString i ∧
      (resolveForMeshData (createLambertMaterialResolver emptyDisposables)
        { mdSampleF64 with sampleId := some 7 } [(7, some 3)]).1 =
          MeshLambertMaterial.created i) :=
  claim_C8_material_key_matches_resolver { mdSampleF64 with sampleId := some 7 } [(7, some 3)]
    (createLambertMaterialResolver emptyDisposables)

theorem splitChar_ne_nil (sep : Char) : ∀ l : List Char, splitChar sep l ≠ [] := by
  intro l
  induction l with
  | nil => simp [splitChar]
  | cons c rest ih =>
    simp only [splitChar]
    split
    · simp
    · split_ifs <;> simp

theorem splitChar_head (sep : Char) :
    ∀ l : List Char,
      (splitChar sep l).head? = some (l.takeWhile (fun c => decide (c ≠ sep))) := by
  intro l
  induction l with
  | nil => simp [splitChar]
  | cons c rest ih =>
    simp only [splitChar]
    split
    · next heq => exact absurd heq (splitChar_ne_nil sep rest)
    · next hd tl heq =>
      rw [heq] at ih
      simp only [List.head?_cons] at ih
      obtain rfl := Option.some.inj ih
      by_cases hc : c = sep
      · subst hc
        simp [List.takeWhile_cons]
      · simp [hc, List.takeWhile_cons]

/-- C10: split('/') never yields an empty array, so the 'model' fallback is
never taken and modelId is always the part of the last '/'-separated segment
before its first '.'; a URL ending in '/' yields the empty string. -/
theorem claim_C10_model_id (fragmentUrl : List Char) :
    splitChar '/' fragmentUrl ≠ [] ∧
    (∃ lastSegment, (splitChar '/' fragmentUrl).getLast? = some lastSegment ∧
      modelIdFromUrl fragmentUrl = lastSegment.takeWhile (fun c => decide (c ≠ '.'))) ∧
    modelIdFromUrl ("models/scene.frag".data) = "scene".data ∧
    modelIdFromUrl ("models/".data) = [] := by
  have hne := splitChar_ne_nil '/' fragmentUrl
  refine ⟨hne, ?_, by decide, by decide⟩
  rcases hlast : (splitChar '/' fragmentUrl).getLast? with _ | seg
  · rw [List.getLast?_eq_none_iff] at hlast
    exact absurd hlast hne
  · refine ⟨seg, rfl, ?_⟩
    have hstep : modelIdFromUrl fragmentUrl =
        match (splitChar '.' seg).head? with
        | none => "model".data
        | some firstPiece => firstPiece := by
      unfold modelIdFromUrl
      rw [hlast]
    rw [hstep, splitChar_head]

theorem claim_C10_model_id_witness :
    splitChar '/' ("a/b.c".data) ≠ [] ∧
    (∃ lastSegment, (splitChar '/' ("a/b.c".data)).getLast? = some lastSegment ∧
      modelIdFromUrl ("a/b.c".data) = lastSegment.takeWhile (fun c => decide (c ≠ '.'))) ∧
    modelIdFromUrl ("models/scene.frag".data) = "scene".data ∧
    modelIdFromUrl ("models/".data) = [] :=
  claim_C10_model_id ("a/b.c".data)

theorem digitChar_ne_pipe (m : Nat) : Nat.digitChar m ≠ '|' := by
  rcases m with _|_|_|_|_|_|_|_|_|_|_|_|_|_|_|_|n <;> simp [Nat.digitChar]

theorem toDigitsCore_no_pipe (base : Nat) :
    ∀ (fuel n : Nat) (ds : List Char), '|' ∉ ds → '|' ∉ Nat.toDigitsCore base fuel n ds := by
  intro fuel
  induction fuel with
  | zero =>
    intro n ds h
    simpa [Nat.toDigitsCore] using h
  | succ f ih =>
    intro n ds h
    rw [Nat.toDigitsCore]
    split_ifs
    · intro hmem
      rcases List.mem_cons.mp hmem with h1 | h1
      · exact digitChar_ne_pipe (n % base) h1.symm
      · exact h h1
    · apply ih
      intro hmem
      rcases List.mem_cons.mp hmem with h1 | h1
      · exact digitChar_ne_pipe (n % base) h1.symm
      · exact h h1

theorem natRepr_no_pipe (n : Nat) : '|' ∉ (Nat.repr n).data := by
  exact toDigitsCore_no_pipe 10 (n + 1) n [] (by simp)

theorem intRepr_no_pipe (i : Int) : '|' ∉ (toString i).data := by
  cases i with
  | ofNat m => exact natRepr_no_pipe m
  | negSucc m =>
    show '|' ∉ ("-" ++ Nat.repr (m + 1)).data
    rw [String.data_append]
    intro hmem
    rcases List.mem_append.mp hmem with h1 | h1
    · simp at h1
    · exact natRepr_no_pipe (m + 1) h1

theorem materialKey_cases (meshData : MeshData) (allSamples : SamplesMap) :
    getMaterialKeyFromMeshData meshData allSamples = "fallback" ∨
      ∃ mid : Int, getMaterialKeyFromMeshData meshData allSamples = "mat:" ++ toString mid := by
  rcases hsid : meshData.sampleId with _ | sid
  · left; simp [getMaterialKeyFromMeshData, hsid]
  · rcases hmid : sampleMaterialId allSamples sid with _ | mid
    · left; simp [getMaterialKeyFromMeshData, hsid, hmid]
    · right; exact ⟨mid, by simp [getMaterialKeyFromMeshData, hsid, hmid]⟩

theorem materialKey_no_pipe (meshData : MeshData) (allSamples : SamplesMap) :
    '|' ∉ (getMaterialKeyFromMeshData meshData allSamples).data := by
  rcases materialKey_cases meshData allSamples with h | ⟨mid, h⟩
  · rw [h]; decide
  · rw [h, String.data_append]
    intro hmem
    rcases List.mem_append.mp hmem with h1 | h1
    · simp at h1
    · exact intRepr_no_pipe mid h1

theorem append_pipe_inj : ∀ (a c b d : List Char), '|' ∉ a → '|' ∉ c →
    a ++ '|' :: b = c ++ '|' :: d → a = c ∧ b = d := by
  intro a
  induction a with
  | nil =>
    intro c b d _ hc h
    cases c with
    | nil => simpa using h
    | cons x xs =>
      simp only [List.nil_append, List.cons_append, List.cons.injEq] at h
      exfalso
      apply hc
      rw [← h.1]
      simp
  | cons y ys ih =>
    intro c b d ha hc h
    cases c with
    | nil =>
      simp only [List.cons_append, List.nil_append, List.cons.injEq] at h
      exfalso
      apply ha
      rw [h.1]
      simp
    | cons x xs =>
      simp only [List.cons_append, List.cons.injEq] at h
      obtain ⟨rfl, h2⟩ := h
      have ha' : '|' ∉ ys := fun hm => ha (by simp [hm])
      have hc' : '|' ∉ xs := fun hm => hc (by simp [hm])
      obtain ⟨rfl, rfl⟩ := ih xs b d ha' hc' h2
      exact ⟨rfl, rfl⟩

theorem bucketKey_data (allSamples : SamplesMap) (meshData : MeshData) :
    (bucketKeyOf allSamples meshData).data =
      (getMaterialKeyFromMeshData meshData allSamples).data ++
        '|' :: (getGeometryKeyFromMeshData meshData).data := by
  unfold bucketKeyOf
  rw [String.data_append, String.data_append]
  simp

theorem bucketKey_eq_iff (allSamples : SamplesMap) (md1 md2 : MeshData) :
    bucketKeyOf allSamples md1 = bucketKeyOf allSamples md2 ↔
      (getMaterialKeyFromMeshData md1 allSamples = getMaterialKeyFromMeshData md2 allSamples ∧
        getGeometryKeyFromMeshData md1 = getGeometryKeyFromMeshData md2) := by
  constructor
  · intro h
    have hd := congrArg String.data h
    rw [bucketKey_data, bucketKey_data] at hd
    obtain ⟨h1, h2⟩ := append_pipe_inj _ _ _ _
      (materialKey_no_pipe md1 allSamples) (materialKey_no_pipe md2 allSamples) hd
    exact ⟨String.ext h1, String.ext h2⟩
  · rintro ⟨h1, h2⟩
    unfold bucketKeyOf
    rw [h1, h2]

theorem bucketMatrixCount_push_self :
    ∀ (bm : List (String × List Unit)) (key : String),
      bucketMatrixCount (pushBucketMatrix bm key) key = bucketMatrixCount bm key + 1 := by
  intro bm
  induction bm with
  | nil => intro key; simp [pushBucketMatrix, bucketMatrixCount, List.lookup]
  | cons p rest ih =>
    intro key
    obtain ⟨k, ms⟩ := p
    by_cases hk : k = key
    · subst hk
      simp [pushBucketMatrix, bucketMatrixCount, List.lookup]
    · have hk' : (key == k) = false := by simp [hk]; intro h; exact hk h.symm
      simp only [pushBucketMatrix, if_neg hk, bucketMatrixCount, List.lookup, hk']
      exact ih key

theorem bucketMatrixCount_push_other :
    ∀ (bm : List (String × List Unit)) (key k : String), k ≠ key →
      bucketMatrixCount (pushBucketMatrix bm key) k = bucketMatrixCount bm k := by
  intro bm
  induction bm with
  | nil =>
    intro key k hk
    have hk' : (k == key) = false := by simp [hk]
    simp [pushBucketMatrix, bucketMatrixCount, List.lookup, hk']
  | cons p rest ih =>
    intro key k hk
    obtain ⟨k0, ms⟩ := p
    by_cases hk0 : k0 = key
    · subst hk0
      have hk' : (k == k0) = false := by simp; exact hk
      simp [pushBucketMatrix, bucketMatrixCount, List.lookup, hk']
    · simp only [pushBucketMatrix, if_neg hk0, bucketMatrixCount, List.lookup]
      by_cases hkk : k = k0
      · subst hkk
        simp
      · have hkk' : (k == k0) = false := by simp [hkk]
        simp only [hkk', Bool.false_eq_true, if_false]
        exact ih key k hk

theorem accumulateBuckets_count_aux (allSamples : SamplesMap) :
    ∀ (mds : List MeshData) (bm : List (String × List Unit)) (k : String),
      bucketMatrixCount
        (mds.foldl
          (fun bm md =>
            if hasNonemptyPositions md then pushBucketMatrix bm (bucketKeyOf allSamples md)
            else bm)
          bm) k =
        bucketMatrixCount bm k +
          mds.countP (fun md =>
            hasNonemptyPositions md && (bucketKeyOf allSamples md == k)) := by
  intro mds
  induction mds with
  | nil => intro bm k; simp
  | cons md rest ih =>
    intro bm k
    simp only [List.foldl_cons, List.countP_cons]
    by_cases hne : hasNonemptyPositions md
    · by_cases hkey : bucketKeyOf allSamples md = k
      · subst hkey
        have hb : (hasNonemptyPositions md &&
            (bucketKeyOf allSamples md == bucketKeyOf allSamples md)) = true := by
          simp [hne]
        rw [if_pos hne, ih, hb, bucketMatrixCount_push_self]
        simp [Nat.add_assoc, Nat.add_comm, Nat.add_left_comm]
      · have hb : (hasNonemptyPositions md && (bucketKeyOf allSamples md == k)) = false := by
          simp [hkey]
        rw [if_pos hne, ih, hb, bucketMatrixCount_push_other _ _ _ (fun h => hkey h.symm)]
        simp
    · have hb : (hasNonemptyPositions md && (bucketKeyOf allSamples md == k)) = false := by
        simp [hne]
      rw [if_neg hne, ih, hb]
      simp

/-- C1: during a rebuild, every mesh part with non-empty positions is pushed
into the bucket keyed materialKey|geometryKey (the count under each key is
the number of such parts with that key), and two parts share a bucket key
exactly when their material keys and geometry keys are equal strings. -/
theorem claim_C1_bucket_assignment (allSamples : SamplesMap) (mds : List MeshData) :
    (∀ k, bucketMatrixCount (accumulateBuckets allSamples mds) k =
      mds.countP (fun md =>
        hasNonemptyPositions md && (bucketKeyOf allSamples md == k))) ∧
    (∀ md1 md2 : MeshData,
      bucketKeyOf allSamples md1 = bucketKeyOf allSamples md2 ↔
        (getMaterialKeyFromMeshData md1 allSamples = getMaterialKeyFromMeshData md2 allSamples ∧
          getGeometryKeyFromMeshData md1 = getGeometryKeyFromMeshData md2)) := by
  constructor
  · intro k
    have := accumulateBuckets_count_aux allSamples mds [] k
    simpa [accumulateBuckets, bucketMatrixCount, List.lookup] using this
  · intro md1 md2
    exact bucketKey_eq_iff allSamples md1 md2

theorem claim_C1_bucket_assignment_witness :
    (∀ k, bucketMatrixCount (accumulateBuckets [(7, some 3)] [mdSampleF64]) k =
      [mdSampleF64].countP (fun md =>
        hasNonemptyPositions md && (bucketKeyOf [(7, some 3)] md == k))) ∧
    (∀ md1 md2 : MeshData,
      bucketKeyOf [(7, some 3)] md1 = bucketKeyOf [(7, some 3)] md2 ↔
        (getMaterialKeyFromMeshData md1 [(7, some 3)] = getMaterialKeyFromMeshData md2 [(7, some 3)] ∧
          getGeometryKeyFromMeshData md1 = getGeometryKeyFromMeshData md2)) :=
  claim_C1_bucket_assignment [(7, some 3)] [mdSampleF64]

theorem buildGeometry_spec_none (md : MeshData) (d : Disposables)
    (h : hasNonemptyPositions md = false) : buildGeometryFromMeshData md d = (none, d) := by
  obtain ⟨pos, idx, sid⟩ := md
  rcases pos with _ | ps
  · rfl
  · have hlen : ps.data.length = 0 := by
      simp [hasNonemptyPositions] at h
      simp [h]
    simp only [buildGeometryFromMeshData]
    rw [if_pos hlen]

theorem buildGeometry_spec_some (md : MeshData) (d : Disposables)
    (h : hasNonemptyPositions md = true) :
    buildGeometryFromMeshData md d =
      (some (builtGeometry md),
        { d with geometries := d.geometries ++ [builtGeometry md] }) := by
  obtain ⟨pos, idx, sid⟩ := md
  rcases pos with _ | ps
  · simp [hasNonemptyPositions] at h
  · have hlen : ¬ps.data.length = 0 := by
      simp [hasNonemptyPositions] at h
      omega
    simp only [buildGeometryFromMeshData, builtGeometry]
    rw [if_neg hlen]
    rfl

theorem resolve_spec_none (st : ResolverState) (md : MeshData) (allSamples : SamplesMap)
    (h : resolvedMaterialId allSamples md = none) :
    resolveForMeshData st md allSamples = (MeshLambertMaterial.fallback, st) := by
  rcases hsid : md.sampleId with _ | sid
  · simp [resolveForMeshData, hsid]
  · have h2 : sampleMaterialId allSamples sid = none := by
      unfold resolvedMaterialId at h
      rw [hsid, Option.some_bind] at h
      exact h
    simp [resolveForMeshData, hsid, h2]

theorem resolve_spec_some (st : ResolverState) (md : MeshData) (allSamples : SamplesMap)
    (mid : Int) (h : resolvedMaterialId allSamples md = some mid) :
    resolveForMeshData st md allSamples = getOrCreate st mid := by
  rcases hsid : md.sampleId with _ | sid
  · unfold resolvedMaterialId at h
    rw [hsid] at h
    simp at h
  · have h2 : sampleMaterialId allSamples sid = some mid := by
      unfold resolvedMaterialId at h
      rw [hsid, Option.some_bind] at h
      exact h
    simp [resolveForMeshData, hsid, h2]

theorem runBuildStep_skip (allSamples : SamplesMap) (st : ResolverState) (md : MeshData)
    (h : hasNonemptyPositions md = false) : runBuildStep allSamples st md = st := by
  simp only [runBuildStep, buildGeometry_spec_none md st.disposables h]

theorem runBuildStep_fallback (allSamples : SamplesMap) (st : ResolverState) (md : MeshData)
    (h : hasNonemptyPositions md = true) (h2 : resolvedMaterialId allSamples md = none) :
    runBuildStep allSamples st md =
      { st with disposables :=
        { st.disposables with
          geometries := st.disposables.geometries ++ [builtGeometry md] } } := by
  simp only [runBuildStep, buildGeometry_spec_some md st.disposables h]
  rw [resolve_spec_none _ md allSamples h2]

theorem runBuildStep_cached (allSamples : SamplesMap) (st : ResolverState) (md : MeshData)
    (mid : Int) (h : hasNonemptyPositions md = true)
    (h2 : resolvedMaterialId allSamples md = some mid) (h3 : mid ∈ st.materialCache) :
    runBuildStep allSamples st md =
      { st with disposables :=
        { st.disposables with
          geometries := st.disposables.geometries ++ [builtGeometry md] } } := by
  simp only [runBuildStep, buildGeometry_spec_some md st.disposables h]
  rw [resolve_spec_some _ md allSamples mid h2]
  unfold getOrCreate
  rw [if_pos h3]

theorem runBuildStep_create (allSamples : SamplesMap) (st : ResolverState) (md : MeshData)
    (mid : Int) (h : hasNonemptyPositions md = true)
    (h2 : resolvedMaterialId allSamples md = some mid) (h3 : mid ∉ st.materialCache) :
    runBuildStep allSamples st md =
      { materialCache := st.materialCache ++ [mid]
        disposables :=
          { geometries := st.disposables.geometries ++ [builtGeometry md]
            materials :=
              st.disposables.materials ++ [MeshLambertMaterial.created mid] } } := by
  simp only [runBuildStep, buildGeometry_spec_some md st.disposables h]
  rw [resolve_spec_some _ md allSamples mid h2]
  unfold getOrCreate
  rw [if_neg h3]

theorem createdGeometries_cons_true (md : MeshData) (mds : List MeshData)
    (h : hasNonemptyPositions md = true) :
    createdGeometries (md :: mds) = builtGeometry md :: createdGeometries mds := by
  simp [createdGeometries, h]

theorem createdGeometries_cons_false (md : MeshData) (mds : List MeshData)
    (h : hasNonemptyPositions md = false) :
    createdGeometries (md :: mds) = createdGeometries mds := by
  simp [createdGeometries, h]

theorem resolvedIds_cons_skip (allSamples : SamplesMap) (md : MeshData) (mds : List MeshData)
    (h : hasNonemptyPositions md = false) :
    resolvedIds allSamples (md :: mds) = resolvedIds allSamples mds := by
  simp [resolvedIds, h]

theorem resolvedIds_cons_none (allSamples : SamplesMap) (md : MeshData) (mds : List MeshData)
    (h : hasNonemptyPositions md = true) (h2 : resolvedMaterialId allSamples md = none) :
    resolvedIds allSamples (md :: mds) = resolvedIds allSamples mds := by
  simp [resolvedIds, h, List.filterMap_cons, h2]

theorem resolvedIds_cons_some (allSamples : SamplesMap) (md : MeshData) (mds : List MeshData)
    (mid : Int) (h : hasNonemptyPositions md = true)
    (h2 : resolvedMaterialId allSamples md = some mid) :
    resolvedIds allSamples (md :: mds) = mid :: resolvedIds allSamples mds := by
  simp [resolvedIds, h, List.filterMap_cons, h2]

theorem firstDedup_congr : ∀ (l s1 s2 : List Int),
    (∀ x, x ∈ s1 ↔ x ∈ s2) → firstDedup s1 l = firstDedup s2 l := by
  intro l
  induction l with
  | nil => intro s1 s2 _; rfl
  | cons x xs ih =>
    intro s1 s2 h
    simp only [firstDedup]
    by_cases hx : x ∈ s1
    · rw [if_pos hx, if_pos ((h x).mp hx)]
      exact ih s1 s2 h
    · rw [if_neg hx, if_neg (fun hh => hx ((h x).mpr hh))]
      congr 1
      apply ih
      intro y
      simp only [List.mem_cons]
      rw [h y]

theorem runBuild_aux (allSamples : SamplesMap) :
    ∀ (mds : List MeshData) (st : ResolverState),
      (List.foldl (runBuildStep allSamples) st mds).disposables.geometries =
          st.disposables.geometries ++ createdGeometries mds ∧
      (List.foldl (runBuildStep allSamples) st mds).disposables.materials =
          st.disposables.materials ++
            (firstDedup st.materialCache (resolvedIds allSamples mds)).map
              MeshLambertMaterial.created ∧
      (List.foldl (runBuildStep allSamples) st mds).materialCache =
          st.materialCache ++ firstDedup st.materialCache (resolvedIds allSamples mds) := by
  intro mds
  induction mds with
  | nil =>
    intro st
    simp [createdGeometries, resolvedIds, firstDedup]
  | cons md rest ih =>
    intro st
    simp only [List.foldl_cons]
    by_cases hne : hasNonemptyPositions md
    · rcases hmid : resolvedMaterialId allSamples md with _ | mid
      · rw [runBuildStep_fallback allSamples st md hne hmid,
          createdGeometries_cons_true md rest hne,
          resolvedIds_cons_none allSamples md rest hne hmid]
        obtain ⟨ih1, ih2, ih3⟩ := ih
          { st with disposables :=
            { st.disposables with
              geometries := st.disposables.geometries ++ [builtGeometry md] } }
        refine ⟨?_, ?_, ?_⟩
        · rw [ih1]; simp
        · rw [ih2]
        · rw [ih3]
      · by_cases hmem : mid ∈ st.materialCache
        · rw [runBuildStep_cached allSamples st md mid hne hmid hmem,
            createdGeometries_cons_true md rest hne,
            resolvedIds_cons_some allSamples md rest mid hne hmid]
          obtain ⟨ih1, ih2, ih3⟩ := ih
            { st with disposables :=
              { st.disposables with
                geometries := st.disposables.geometries ++ [builtGeometry md] } }
          have hfd : firstDedup st.materialCache (mid :: resolvedIds allSamples rest) =
              firstDedup st.materialCache (resolvedIds allSamples rest) := by
            simp only [firstDedup, if_pos hmem]
          refine ⟨?_, ?_, ?_⟩
          · rw [ih1]; simp
          · rw [ih2, hfd]
          · rw [ih3, hfd]
        · rw [runBuildStep_create allSamples st md mid hne hmid hmem,
            createdGeometries_cons_true md rest hne,
            resolvedIds_cons_some allSamples md rest mid hne hmid]
          obtain ⟨ih1, ih2, ih3⟩ := ih
            { materialCache := st.materialCache ++ [mid]
              disposables :=
                { geometries := st.disposables.geometries ++ [builtGeometry md]
                  materials :=
                    st.disposables.materials ++ [MeshLambertMaterial.created mid] } }
          have hseen : firstDedup (st.materialCache ++ [mid]) (resolvedIds allSamples rest) =
              firstDedup (mid :: st.materialCache) (resolvedIds allSamples rest) := by
            apply firstDedup_congr
            intro x
            simp [List.mem_append, List.mem_cons]
            tauto
          have hfd : firstDedup st.materialCache (mid :: resolvedIds allSamples rest) =
              mid :: firstDedup (mid :: st.materialCache) (resolvedIds allSamples rest) := by
            simp only [firstDedup, if_neg hmem]
          refine ⟨?_, ?_, ?_⟩
          · rw [ih1]; simp
          · rw [ih2, hseen, hfd]
            simp
          · rw [ih3, hseen, hfd]
            simp
    · have hne' : hasNonemptyPositions md = false := by
        simpa using hne
      rw [runBuildStep_skip allSamples st md hne',
        createdGeometries_cons_false md rest hne',
        resolvedIds_cons_skip allSamples md rest hne']
      exact ih st

/-- C7: every geometry buildGeometryFromMeshData creates is appended to
disposables.geometries before being returned (previous entries unchanged,
materials untouched), and a full build's disposables record holds exactly
the resources created during that build: the geometries of the parts with
non-empty positions, and the fallback material followed by one material per
first-seen resolvable materialId — so the unmount cleanup, which disposes
exactly the registered entries, disposes every created resource. -/
theorem claim_C7_disposal_completeness (allSamples : SamplesMap) (mds : List MeshData)
    (meshData : MeshData) (disposables : Disposables) :
    ((buildGeometryFromMeshData meshData disposables).2.materials = disposables.materials) ∧
    (∀ g, (buildGeometryFromMeshData meshData disposables).1 = some g →
      (buildGeometryFromMeshData meshData disposables).2.geometries =
        disposables.geometries ++ [g]) ∧
    ((buildGeometryFromMeshData meshData disposables).1 = none →
      (buildGeometryFromMeshData meshData disposables).2 = disposables) ∧
    (runBuild allSamples mds).disposables.geometries = createdGeometries mds ∧
    (runBuild allSamples mds).disposables.materials =
      MeshLambertMaterial.fallback ::
        (firstDedup [] (resolvedIds allSamples mds)).map MeshLambertMaterial.created := by
  obtain ⟨g1, g2, g3⟩ := runBuild_aux allSamples mds
    (createLambertMaterialResolver { geometries := [], materials := [] })
  refine ⟨?_, ?_, ?_, ?_, ?_⟩
  · by_cases hne : hasNonemptyPositions meshData
    · rw [buildGeometry_spec_some meshData disposables hne]
    · rw [buildGeometry_spec_none meshData disposables (by simpa using hne)]
  · intro g hg
    by_cases hne : hasNonemptyPositions meshData
    · rw [buildGeometry_spec_some meshData disposables hne] at hg ⊢
      obtain rfl := Option.some.inj hg
      rfl
    · rw [buildGeometry_spec_none meshData disposables (by simpa using hne)] at hg
      simp at hg
  · intro hg
    by_cases hne : hasNonemptyPositions meshData
    · rw [buildGeometry_spec_some meshData disposables hne] at hg
      simp at hg
    · rw [buildGeometry_spec_none meshData disposables (by simpa using hne)]
  · rw [runBuild, g1]
    rfl
  · rw [runBuild, g2]
    rfl

theorem claim_C7_disposal_completeness_witness :
    (((buildGeometryFromMeshData mdSampleF64 emptyDisposables).2.materials =
        emptyDisposables.materials) ∧
    (∀ g, (buildGeometryFromMeshData mdSampleF64 emptyDisposables).1 = some g →
      (buildGeometryFromMeshData mdSampleF64 emptyDisposables).2.geometries =
        emptyDisposables.geometries ++ [g]) ∧
    ((buildGeometryFromMeshData mdSampleF64 emptyDisposables).1 = none →
      (buildGeometryFromMeshData mdSampleF64 emptyDisposables).2 = emptyDisposables) ∧
    (runBuild [(7, some 3)] [{ mdSampleF64 with sampleId := some 7 }]).disposables.geometries =
      createdGeometries [{ mdSampleF64 with sampleId := some 7 }] ∧
    (runBuild [(7, some 3)] [{ mdSampleF64 with sampleId := some 7 }]).disposables.materials =
      MeshLambertMaterial.fallback ::
        (firstDedup []
          (resolvedIds [(7, some 3)] [{ mdSampleF64 with sampleId := some 7 }])).map
            MeshLambertMaterial.created) :=
  claim_C7_disposal_completeness [(7, some 3)] [{ mdSampleF64 with sampleId := some 7 }]
    mdSampleF64 emptyDisposables

theorem toUint32_lt (x : Int) : toUint32 x < 2 ^ 32 := by
  unfold toUint32
  have h1 : x.emod (2 ^ 32) < 2 ^ 32 := Int.emod_lt_of_pos x (by norm_num)
  have h2 : 0 ≤ x.emod (2 ^ 32) := Int.emod_nonneg x (by norm_num)
  omega

theorem fnv1a32Update_lt (hash v : Nat) : fnv1a32Update hash v < 2 ^ 32 :=
  toUint32_lt _

set_option maxRecDepth 100000 in
/-- C9 counterexample: hashSampledArrayLike maps this non-empty 5-element
positions array to 0 (the FNV-style mix has zero preimages reachable from
non-empty inputs), so 0 is not returned only for null/undefined/empty
arrays. -/
theorem claim_C9_hash_zero_counterexample :
    hashSampledArrayLike (some [9081727, 653288, 51828466, 44066545, 12078365]) 64 = 0 ∧
      some [9081727, 653288, 51828466, 44066545, (12078365 : Int)] ≠ none ∧
      ([9081727, 653288, 51828466, 44066545, (12078365 : Int)] : List Int) ≠ [] := by
  refine ⟨by decide, by decide, by decide⟩

/-- C9 (amended): hashSampledArrayLike always returns an unsigned 32-bit
value below 2 ^ 32, returns 0 whenever the input is null, undefined or
empty (rare non-empty inputs can also hash to 0), and is a deterministic
function of the array contents; hence meshData values with element-wise
equal positions and indices get equal geometry keys. -/
theorem claim_C9_hash_uint32_deterministic :
    (∀ (a : Option (List Int)) (maxSamples : Nat), 0 < maxSamples →
      hashSampledArrayLike a maxSamples < 2 ^ 32 ∧
        ((a = none ∨ a = some []) → hashSampledArrayLike a maxSamples = 0)) ∧
    (∀ (a b : Option (List Int)) (maxSamples : Nat), a = b →
      hashSampledArrayLike a maxSamples = hashSampledArrayLike b maxSamples) ∧
    (∀ md1 md2 : MeshData,
      md1.positions.map NumArray.data = md2.positions.map NumArray.data →
      md1.indices.map NumArray.data = md2.indices.map NumArray.data →
      getGeometryKeyFromMeshData md1 = getGeometryKeyFromMeshData md2) := by
  refine ⟨?_, ?_, ?_⟩
  · intro a maxSamples _
    constructor
    · rcases a with _ | l
      · simp [hashSampledArrayLike]
      · by_cases hl : l.length = 0
        · simp [hashSampledArrayLike, hl]
        · simp only [hashSampledArrayLike]
          rw [if_neg hl]
          exact fnv1a32Update_lt _ _
    · intro h
      rcases h with rfl | rfl
      · rfl
      · simp [hashSampledArrayLike]
  · intro a b maxSamples h
    rw [h]
  · intro md1 md2 h1 h2
    unfold getGeometryKeyFromMeshData
    rw [h1, h2]

theorem claim_C9_hash_uint32_deterministic_witness :
    0 < 64 ∧ hashSampledArrayLike (some [1, 2, 3]) 64 < 2 ^ 32 ∧
      hashSampledArrayLike none 64 = 0 :=
  ⟨by decide,
    (claim_C9_hash_uint32_deterministic.1 (some [1, 2, 3]) 64 (by decide)).1,
    (claim_C9_hash_uint32_deterministic.1 none 64 (by decide)).2 (Or.inl rfl)⟩
